import Mathlib

/-!
Verification development for the image-protocol engine of the
`ratatui-image` repository (`src/src/protocol/mod.rs`).

The engine wraps a decoded raster image (`ImageSource`), derives its
cell-grid footprint from the terminal font size, fingerprints the pixel
bytes, and dispatches four encoding backends behind a closed enum
(`StatefulBlock` / `FixedBlock`) that share the resize-avoidance contract
`needs_resize` / `resize_encode` / `render`.

The file `src/src/protocol/mod.rs` is present in the repository snapshot;
the backend modules (`halfblocks.rs`, `sixel.rs`, `kitty.rs`, `iterm2.rs`)
and the crate root (`lib.rs`, holding `FontSize` and `Resize`) are not.
Definitions taken from the present source say so in their doc comment;
definitions for the missing modules are modelled from the specification
and start with `Modelled from the spec:`.
-/

namespace RatatuiImage

/-- Model of `ratatui::layout::Rect` (external host-framework geometry
primitive; fields are `u16` in Rust, carried here as `Nat`). The engine
only ever constructs rects through `Rect::new(0, 0, w, h)` and compares /
reads the fields, so the record constructor is a faithful model on the
range where the host constructor does not clamp (cell area at most
`65535`). -/
structure Rect where
  x : Nat
  y : Nat
  width : Nat
  height : Nat
deriving DecidableEq

/-- A cell position `(column, row)` of the host cell buffer. -/
abbrev Pos := Nat × Nat

/-- `r.contains pos`: the position lies inside the rectangle. -/
def Rect.contains (r : Rect) (pos : Pos) : Prop :=
  r.x ≤ pos.1 ∧ pos.1 < r.x + r.width ∧ r.y ≤ pos.2 ∧ pos.2 < r.y + r.height

instance (r : Rect) (pos : Pos) : Decidable (r.contains pos) :=
  inferInstanceAs (Decidable (r.x ≤ pos.1 ∧ pos.1 < r.x + r.width ∧
    r.y ≤ pos.2 ∧ pos.2 < r.y + r.height))

/-- Model of `crate::FontSize = (u16, u16)` (declared in `lib.rs`, absent
from `src/`; its shape is visible from `use crate::FontSize` and the spec:
a pair of cell pixel width and cell pixel height). -/
abbrev FontSize := Nat × Nat

/-- Model of `image::DynamicImage` (external collaborator): pixel width,
pixel height (`u32` in Rust) and the raw byte container returned by
`as_bytes()`. -/
structure DynamicImage where
  width : Nat
  height : Nat
  bytes : List Nat
deriving DecidableEq

/-- Model of `image::Rgb<u8>` (external collaborator). -/
structure Rgb where
  r : Nat
  g : Nat
  b : Nat
deriving DecidableEq

/-- Model of `std::collections::hash_map::DefaultHasher` applied to a byte
slice and finished to a `u64` (external standard-library collaborator; the
real hasher is SipHash-1-3 with fixed zero keys). All that the engine's
code relies on — and all the claims use — is that it is one fixed
deterministic total function of the byte sequence alone, so it is modelled
as a concrete 64-bit fold. -/
def defaultHash (bs : List Nat) : Nat :=
  bs.foldl (fun acc b => (acc * 31 + b + 1) % 2 ^ 64) 5381

/-- Translated from `ImageSource::round_pixel_size_to_cells`
(`src/src/protocol/mod.rs:112-120`): per axis the source computes
`(img as f32 / chr as f32).ceil() as u16`.

For integer inputs with `img ≤ 2^24` (exactly representable in `f32`) and
`chr ≤ 65535` (a `u16`), the correctly rounded `f32` division followed by
`ceil` equals exact ceiling division, and the Rust float-to-int `as u16`
cast saturates (values above `65535` become `65535`, `NaN` becomes `0`,
`+∞` becomes `65535`). This embeds that semantics over naturals: exact
ceiling division saturated at `65535`, with the IEEE-754 zero-divisor
cases (`0.0 / 0.0 = NaN ↦ 0`, `pos / 0.0 = +∞ ↦ 65535`) spelled out. -/
def ceilDivSat (img chr : Nat) : Nat :=
  if chr = 0 then (if img = 0 then 0 else 65535)
  else min ((img + chr - 1) / chr) 65535

/-- Translated from `ImageSource::round_pixel_size_to_cells`
(`src/src/protocol/mod.rs:112-120`): rounds an image pixel size to the
nearest matching cell size, one saturated ceiling division per axis,
packed into `Rect::new(0, 0, width, height)`. The host `Rect::new`
rescales both axes when `width * height > 65535` (see the `Rect` doc
comment above), so this embedding is faithful only on the unclamped
range; every theorem exercising it constrains its inputs to keep the
resulting cell area at most `65535`. -/
def round_pixel_size_to_cells (img_width img_height : Nat)
    (font_size : FontSize) : Rect :=
  ⟨0, 0, ceilDivSat img_width font_size.1, ceilDivSat img_height font_size.2⟩

/-- Translated from `pub struct ImageSource`
(`src/src/protocol/mod.rs:83-92`): the original image, the terminal font
size, the derived `desired` cell rectangle and the content fingerprint. -/
structure ImageSource where
  image : DynamicImage
  font_size : FontSize
  desired : Rect
  hash : Nat
deriving DecidableEq

/-- Translated from `ImageSource::new` (`src/src/protocol/mod.rs:96-110`):
computes `desired` via `round_pixel_size_to_cells`, hashes
`image.as_bytes()` with a fresh `DefaultHasher`, and returns the record.
The source performs no input validation and has no failure path. -/
def ImageSource.new (image : DynamicImage) (font_size : FontSize) :
    ImageSource :=
  let desired := round_pixel_size_to_cells image.width image.height font_size
  let hash := defaultHash image.bytes
  { image, font_size, desired, hash }

/-- Model of a cell of the host cell buffer (external collaborator; spec
§6: "a rectangular addressable grid of cells, each holding a glyph and a
foreground/background color"). The glyph is carried as a code point. -/
structure Cell where
  symbol : Nat
  fg : Nat
  bg : Nat
deriving DecidableEq

/-- The blank cell the host buffer starts from. -/
def blankCell : Cell := ⟨32, 0, 0⟩

/-- Model of `ratatui::buffer::Buffer` (external collaborator): the cell
at each position. -/
abbrev Buffer := Pos → Cell

/-- Modelled from the spec: the three resize policies of §4.2, "exact-fit /
fit-within-bounds preserving aspect / crop-to-fill" (`Resize` is declared
in `lib.rs`, absent from `src/`). -/
inductive Resize where
  | scale
  | fit
  | crop
deriving DecidableEq

/-- Modelled from the spec: a backend-specific encoded payload (§3
"Protocol State ... the backend-specific encoded payload"): a rectangle of
encoded cells, stored row-major. The four wire representations differ only
in the cell contents, which none of the claims depend on, so one uniform
grid shape stands for all of them. -/
structure Payload where
  rect : Rect
  rows : List (List Cell)
deriving DecidableEq

/-- Modelled from the spec: the expensive resample-and-convert step of
`resize_encode` (§4.2), producing the wire payload for the target area
from the immutable source. The exact cell contents are irrelevant to the
claims; what matters is that they are a function of the source, the
policy, the background color and the target area only. -/
def encodePayload (src : ImageSource) (policy : Resize) (bg : Option Rgb)
    (area : Rect) : Payload :=
  { rect := ⟨0, 0, area.width, area.height⟩
  , rows := (List.range area.height).map (fun j =>
      (List.range area.width).map (fun i =>
        { symbol := 9600 + (match policy with | .scale => 0 | .fit => 1 | .crop => 2)
        , fg := (src.hash + i + 31 * j) % 16777216
        , bg := match bg with | some c => (c.r * 256 + c.g) * 256 + c.b | none => 0 })) }

/-- The write the cached payload makes at a buffer position when rendered
at `area`: the payload is placed at the origin of `area` and clipped to
both the area and the payload extent; positions outside get no write. -/
def payloadWriteAt (p : Payload) (area : Rect) (pos : Pos) : Option Cell :=
  if area.x ≤ pos.1 ∧ pos.1 < area.x + min area.width p.rect.width ∧
      area.y ≤ pos.2 ∧ pos.2 < area.y + min area.height p.rect.height then
    some ((p.rows.getD (pos.2 - area.y) []).getD (pos.1 - area.x) blankCell)
  else none

/-- Writes a payload into the destination buffer at `area`: written
positions take the payload cell, all others keep the buffer's cell. -/
def renderPayload (p : Payload) (area : Rect) (buf : Buffer) : Buffer :=
  fun pos => (payloadWriteAt p area pos).getD (buf pos)

/-- Modelled from the spec: one cache entry of a stateful backend (§3
"Protocol State ... holds: the last area it was encoded for, the last
resize policy used, and the backend-specific encoded payload", valid only
for the exact (area, policy, source fingerprint) triple it was produced
from). `hash` records the source fingerprint at encode time. -/
structure CacheEntry where
  rect : Rect
  policy : Resize
  hash : Nat
  payload : Payload
deriving DecidableEq

/-- Modelled from the spec: the common shape of the four stateful backend
states (`halfblocks::StatefulHalfblocks`, `sixel::StatefulSixel`,
`kitty::StatefulKitty`, `iterm2::Iterm2State`, whose modules are absent
from `src/`): the `ImageSource` the state was created from, and the
optional cache of the last encode (`none` right after construction). -/
structure Backend where
  source : ImageSource
  cache : Option CacheEntry
deriving DecidableEq

/-- Modelled from the spec: backend construction from an `ImageSource`
(§3: "created when a backend is instantiated from an `ImageSource`"); no
encode has happened yet, so the cache is empty. -/
def Backend.fresh (src : ImageSource) : Backend := ⟨src, none⟩

/-- Modelled from the spec (§4.2): `needs_resize(resize_policy, area)`
returns the target area to encode for iff the cached payload is stale —
no cache yet, or the cached (area, policy, source fingerprint) triple
differs from the current one — and nothing when the cache is already
valid for this exact combination. -/
def Backend.needs_resize (b : Backend) (resize : Resize) (area : Rect) :
    Option Rect :=
  match b.cache with
  | none => some area
  | some e =>
      if e.rect = area ∧ e.policy = resize ∧ e.hash = b.source.hash then
        none
      else
        some area

/-- Modelled from the spec (§4.2): `resize_encode(resize_policy,
background_color, area)` performs the expensive work, reading only the
immutable source and writing the result into the state's own cache,
recording the (area, policy, fingerprint) triple it was produced from. -/
def Backend.resize_encode (b : Backend) (resize : Resize) (bg : Option Rgb)
    (area : Rect) : Backend :=
  { b with cache := some ⟨area, resize, b.source.hash,
      encodePayload b.source resize bg area⟩ }

/-- Modelled from the spec (§4.2): `render(area, buffer)` writes the
currently cached payload into the destination buffer at `area`; it never
resizes or recomputes, and with no valid cache yet it renders nothing. -/
def Backend.render (b : Backend) (area : Rect) (buf : Buffer) : Buffer :=
  match b.cache with
  | none => buf
  | some e => renderPayload e.payload area buf

/-- Modelled from the spec: the chunked-transfer (kitty-style) backend
state additionally carries the unique object identifier assigned to the
transmitted image (§4.5; `kitty::StatefulKitty` is absent from `src/`). -/
structure KittyState where
  id : Nat
  backend : Backend
deriving DecidableEq

/-- Translated from `pub enum StatefulBlock`
(`src/src/protocol/mod.rs:123-129`): the closed set of stateful backend
variants. -/
inductive StatefulBlock where
  | halfblocks (hb : Backend)
  | sixel (sx : Backend)
  | kitty (k : KittyState)
  | iterm2 (it : Backend)
deriving DecidableEq

/-- Translated from `impl StatefulProtocol for StatefulBlock`,
`fn needs_resize` (`src/src/protocol/mod.rs:132-139`): dispatch on the
variant. -/
def StatefulBlock.needs_resize (s : StatefulBlock) (resize : Resize)
    (area : Rect) : Option Rect :=
  match s with
  | .halfblocks hb => hb.needs_resize resize area
  | .sixel sx => sx.needs_resize resize area
  | .kitty k => k.backend.needs_resize resize area
  | .iterm2 it => it.needs_resize resize area

/-- Translated from `impl StatefulProtocol for StatefulBlock`,
`fn resize_encode` (`src/src/protocol/mod.rs:141-148`): dispatch on the
variant; the variant state is mutated in place, so the enum constructor is
re-applied to the updated inner state. -/
def StatefulBlock.resize_encode (s : StatefulBlock) (resize : Resize)
    (bg : Option Rgb) (area : Rect) : StatefulBlock :=
  match s with
  | .halfblocks hb => .halfblocks (hb.resize_encode resize bg area)
  | .sixel sx => .sixel (sx.resize_encode resize bg area)
  | .kitty k => .kitty ⟨k.id, k.backend.resize_encode resize bg area⟩
  | .iterm2 it => .iterm2 (it.resize_encode resize bg area)

/-- Translated from `impl StatefulProtocol for StatefulBlock`,
`fn render` (`src/src/protocol/mod.rs:150-157`): dispatch on the
variant. -/
def StatefulBlock.render (s : StatefulBlock) (area : Rect) (buf : Buffer) :
    Buffer :=
  match s with
  | .halfblocks hb => hb.render area buf
  | .sixel sx => sx.render area buf
  | .kitty k => k.backend.render area buf
  | .iterm2 it => it.render area buf

/-- Translated from the provided trait method
`StatefulProtocol::resize_encode_render`
(`src/src/protocol/mod.rs:34-45`), which `StatefulBlock` does not
override: if `needs_resize` returns a rect, `resize_encode` at that rect;
then render into the buffer. Returns the updated state and buffer. -/
def StatefulBlock.resize_encode_render (s : StatefulBlock) (resize : Resize)
    (bg : Option Rgb) (area : Rect) (buf : Buffer) : StatefulBlock × Buffer :=
  let s1 := match s.needs_resize resize area with
    | some rect => s.resize_encode resize bg rect
    | none => s
  (s1, s1.render area buf)

/-- The cache component of a stateful backend variant. -/
def StatefulBlock.cacheOf : StatefulBlock → Option CacheEntry
  | .halfblocks hb => hb.cache
  | .sixel sx => sx.cache
  | .kitty k => k.backend.cache
  | .iterm2 it => it.cache

/-- The `ImageSource` a stateful backend variant was created from. -/
def StatefulBlock.sourceOf : StatefulBlock → ImageSource
  | .halfblocks hb => hb.source
  | .sixel sx => sx.source
  | .kitty k => k.backend.source
  | .iterm2 it => it.source

/-- The variant tag of a stateful backend. -/
def StatefulBlock.tag : StatefulBlock → Nat
  | .halfblocks _ => 0
  | .sixel _ => 1
  | .kitty _ => 2
  | .iterm2 _ => 3

/-- The four backend kinds, used to build fresh states of each variant. -/
inductive BackendKind where
  | halfblocks
  | sixel
  | kitty
  | iterm2
deriving DecidableEq

/-- A freshly constructed stateful backend of the given kind (§3: created
from an `ImageSource`, no encode yet; the kitty variant also receives its
object id). -/
def mkFresh (kind : BackendKind) (id : Nat) (src : ImageSource) :
    StatefulBlock :=
  match kind with
  | .halfblocks => .halfblocks (Backend.fresh src)
  | .sixel => .sixel (Backend.fresh src)
  | .kitty => .kitty ⟨id, Backend.fresh src⟩
  | .iterm2 => .iterm2 (Backend.fresh src)

/-- Modelled from the spec: the common shape of the four fixed backend
states (`halfblocks::Halfblocks`, `sixel::Sixel`, `kitty::Kitty`,
`iterm2::FixedIterm2`, whose modules are absent from `src/`): the payload
encoded once at creation for a single fixed area (§3 "Fixed Protocol ...
computed once at creation ... never changes size"). -/
structure FixedState where
  payload : Payload
deriving DecidableEq

/-- Modelled from the spec (§4.2 `render`): a fixed backend writes its
pre-encoded payload into the buffer at the given area, clipped to it. -/
def FixedState.render (f : FixedState) (area : Rect) (buf : Buffer) :
    Buffer :=
  renderPayload f.payload area buf

/-- Modelled from the spec: the rect the fixed payload was encoded for. -/
def FixedState.rect (f : FixedState) : Rect := f.payload.rect

/-- Translated from `pub enum FixedBlock`
(`src/src/protocol/mod.rs:180-185`): the closed set of fixed backend
variants. -/
inductive FixedBlock where
  | halfblocks (hb : FixedState)
  | sixel (sx : FixedState)
  | kitty (k : FixedState)
  | iterm2 (it : FixedState)
deriving DecidableEq

/-- Translated from `impl Protocol for FixedBlock`, `fn render`
(`src/src/protocol/mod.rs:188-195`): dispatch on the variant. -/
def FixedBlock.render (f : FixedBlock) (area : Rect) (buf : Buffer) :
    Buffer :=
  match f with
  | .halfblocks hb => hb.render area buf
  | .sixel sx => sx.render area buf
  | .kitty k => k.render area buf
  | .iterm2 it => it.render area buf

/-- Translated from `impl Protocol for FixedBlock`, `fn rect`
(`src/src/protocol/mod.rs:197-204`): dispatch on the variant. -/
def FixedBlock.rect (f : FixedBlock) : Rect :=
  match f with
  | .halfblocks hb => hb.rect
  | .sixel sx => sx.rect
  | .kitty k => k.rect
  | .iterm2 it => it.rect

/-- The pre-encoded payload of a fixed backend variant. -/
def FixedBlock.payloadOf : FixedBlock → Payload
  | .halfblocks hb => hb.payload
  | .sixel sx => sx.payload
  | .kitty k => k.payload
  | .iterm2 it => it.payload

/-- The cell a stateful backend's `render` writes at a position (nothing
when the position is not written): determined by the cached payload and
the area alone, never by the destination buffer. -/
def StatefulBlock.renderWrites (s : StatefulBlock) (area : Rect)
    (pos : Pos) : Option Cell :=
  match s.cacheOf with
  | none => none
  | some e => payloadWriteAt e.payload area pos

/-- The cell a fixed backend's `render` writes at a position (nothing when
the position is not written): determined by the fixed payload and the area
alone, never by the destination buffer. -/
def FixedBlock.renderWrites (f : FixedBlock) (area : Rect) (pos : Pos) :
    Option Cell :=
  payloadWriteAt f.payloadOf area pos

/-- Wire commands of the chunked-transfer (kitty-style) protocol, modelled
from the spec (§4.5, §6): chunked upload framed by a continuation flag,
a placement command, and a delete-by-id command, each keyed by the object
id. -/
inductive KittyCmd where
  | transmit (id : Nat) (more : Bool) (chunk : List Nat)
  | place (id : Nat) (cols rows : Nat)
  | delete (id : Nat)
deriving DecidableEq

/-- The object id a chunked-transfer command refers to. -/
def KittyCmd.objectId : KittyCmd → Nat
  | .transmit id _ _ => id
  | .place id _ _ => id
  | .delete id => id

/-- Modelled from the spec (§4.5): creation and placement of a
chunked-transfer image — the payload is split into fixed-size chunks, each
framed with a continuation flag, followed by a separate placement command,
every command carrying the state's object id (`kitty.rs` is absent from
`src/`). -/
def kittyCreateCmds (k : KittyState) (payload : List Nat) (area : Rect) :
    List KittyCmd :=
  let n := (payload.length + 4095) / 4096
  ((List.range n).map (fun i =>
      KittyCmd.transmit k.id (i + 1 < n) ((payload.drop (i * 4096)).take 4096)))
    ++ [KittyCmd.place k.id area.width area.height]

/-- Modelled from the spec (§3, §4.5, §9): the teardown path of a
chunked-transfer Protocol State — destruction always emits the explicit
delete-by-id escape command for the state's object id (the `Drop`
implementation lives in `kitty.rs`, absent from `src/`). -/
def kittyDestroy (k : KittyState) : List KittyCmd :=
  [KittyCmd.delete k.id]

end RatatuiImage

namespace RatatuiImage

/-- Claim C1 (counterexample): the claim states that for every image with
positive dimensions and every positive font size, `ImageSource::new`
computes `desired` as the exact ceiling division on both axes. It fails: a
`70000×1`-pixel image with a `1×1` font size yields a desired width of
`65535`, not `ceil(70000 / 1) = 70000`, because the `f32 → u16` cast in
`round_pixel_size_to_cells` saturates at `65535`. -/
theorem C1_counterexample :
    (ImageSource.new ⟨70000, 1, []⟩ (1, 1)).desired = ⟨0, 0, 65535, 1⟩ ∧
      (65535 : Nat) ≠ (70000 + 1 - 1) / 1 := by
  constructor
  · rfl
  · decide

/-- Claim C1 (amended): for an image whose pixel dimensions are at most
`2^24` (exactly representable in `f32`), a font size whose cell dimensions
are positive `u16` values, and whose per-axis ceiling divisions fit in a
`u16` with cell area at most `65535` (so the host `Rect` constructor does
not clamp), `ImageSource::new` computes `desired` as the exact ceiling
division `cells = ceil(pixels / cell_size)` on both axes. Outside that
range the `f32 → u16` saturating cast caps each axis at `65535`. -/
theorem C1_desired_is_ceil_div (w h : Nat) (bytes : List Nat) (cw ch : Nat)
    (hcw : 0 < cw) (hch : 0 < ch)
    (_hw : w ≤ 2 ^ 24) (_hh : h ≤ 2 ^ 24)
    (_hcwu : cw ≤ 65535) (_hchu : ch ≤ 65535)
    (hfw : (w + cw - 1) / cw ≤ 65535) (hfh : (h + ch - 1) / ch ≤ 65535)
    (_harea : ((w + cw - 1) / cw) * ((h + ch - 1) / ch) ≤ 65535) :
    (ImageSource.new ⟨w, h, bytes⟩ (cw, ch)).desired =
      ⟨0, 0, (w + cw - 1) / cw, (h + ch - 1) / ch⟩ := by
  have hcw0 : cw ≠ 0 := Nat.pos_iff_ne_zero.mp hcw
  have hch0 : ch ≠ 0 := Nat.pos_iff_ne_zero.mp hch
  simp [ImageSource.new, round_pixel_size_to_cells, ceilDivSat, hcw0, hch0,
    Nat.min_eq_left hfw, Nat.min_eq_left hfh]

/-- Claim C1 witness: the spec example — a `100×50`-pixel image with a
`7×14` font size yields a `15×4` cell rectangle. -/
theorem C1_witness :
    (ImageSource.new ⟨100, 50, []⟩ (7, 14)).desired = ⟨0, 0, 15, 4⟩ :=
  C1_desired_is_ceil_div 100 50 [] 7 14 (by decide) (by decide) (by decide)
    (by decide) (by decide) (by decide) (by decide) (by decide) (by decide)

/-- Claim C7 (counterexample): the claim states that constructing an
`ImageSource` with a zero cell width is surfaced immediately at
construction as a programmer error. It is not: `ImageSource::new` has no
validation or failure path, and construction with font size `(0, 50)`
completes normally, returning an ordinary `ImageSource` whose desired
width is the saturation artifact `65535` (the `f32` division by zero gives
`+∞`, which the `as u16` cast saturates). -/
theorem C7_counterexample :
    (ImageSource.new ⟨100, 50, []⟩ (0, 50)).desired = ⟨0, 0, 65535, 1⟩ := by
  rfl

/-- Claim C7 (amended): `ImageSource::new` is total and never fails for
any input, including precondition-violating ones; it performs no
validation, so precondition violations are not surfaced at construction.
With a zero cell width, a positive image width, and the other axis
spanning at most one cell — so the resulting rect area stays at most
`65535` and the host `Rect::new` does not clamp — construction silently
returns the saturated desired width `65535` (symmetrically for a zero
cell height); for larger cross-axis spans the host constructor's clamp
rescales the degenerate rect instead, still without raising any error.
A zero image width yields desired width `0`. For inputs satisfying the
stated precondition there is likewise no failure condition. -/
theorem C7_new_never_fails (w h : Nat) (bytes : List Nat) (cw ch : Nat) :
    (0 < w → ceilDivSat h ch ≤ 1 →
        (ImageSource.new ⟨w, h, bytes⟩ (0, ch)).desired.width = 65535) ∧
      (0 < h → ceilDivSat w cw ≤ 1 →
        (ImageSource.new ⟨w, h, bytes⟩ (cw, 0)).desired.height = 65535) ∧
      (ImageSource.new ⟨0, h, bytes⟩ (cw, ch)).desired.width = 0 := by
  refine ⟨fun hw _hspan => ?_, fun hh _hspan => ?_, ?_⟩
  · simp [ImageSource.new, round_pixel_size_to_cells, ceilDivSat,
      Nat.pos_iff_ne_zero.mp hw]
  · simp [ImageSource.new, round_pixel_size_to_cells, ceilDivSat,
      Nat.pos_iff_ne_zero.mp hh]
  · rcases Nat.eq_zero_or_pos cw with hc | hc
    · simp [ImageSource.new, round_pixel_size_to_cells, ceilDivSat, hc]
    · have hc0 : cw ≠ 0 := Nat.pos_iff_ne_zero.mp hc
      have hlt : cw - 1 < cw := Nat.sub_lt hc Nat.one_pos
      simp [ImageSource.new, round_pixel_size_to_cells, ceilDivSat, hc0,
        Nat.div_eq_of_lt hlt]

/-- Claim C7 witness: a `100×50` image with font size `(0, 50)` — the
height axis spans exactly one cell, so the rect area is `65535` and the
host constructor does not clamp — saturates to desired width `65535`
instead of erroring. -/
theorem C7_witness :
    (ImageSource.new ⟨100, 50, []⟩ (0, 50)).desired.width = 65535 :=
  (C7_new_never_fails 100 50 [] 0 50).1 (by decide) (by decide)

/-- Claim C9: the content fingerprint computed by `ImageSource::new` is a
deterministic function of the image's raw pixel bytes alone: two calls
whose images have identical `as_bytes` sequences produce equal `hash`
fields, regardless of the font sizes passed (the hasher is fed only
`image.as_bytes()`, never the font size). -/
theorem C9_hash_depends_only_on_bytes (i1 i2 : DynamicImage)
    (fs1 fs2 : FontSize) (hb : i1.bytes = i2.bytes) :
    (ImageSource.new i1 fs1).hash = (ImageSource.new i2 fs2).hash := by
  simp [ImageSource.new, hb]

/-- Claim C9 witness: two images with the same bytes but different
dimensions and font sizes hash identically. -/
theorem C9_witness :
    (ImageSource.new ⟨2, 2, [1, 2, 3]⟩ (7, 14)).hash =
      (ImageSource.new ⟨4, 1, [1, 2, 3]⟩ (3, 5)).hash :=
  C9_hash_depends_only_on_bytes ⟨2, 2, [1, 2, 3]⟩ ⟨4, 1, [1, 2, 3]⟩
    (7, 14) (3, 5) (by decide)

/-- A backend with an empty cache asks for the whole area. -/
lemma Backend.needs_resize_of_cache_none (b : Backend) (p : Resize)
    (area : Rect) (hc : b.cache = none) : b.needs_resize p area = some area := by
  simp [Backend.needs_resize, hc]

/-- Immediately after `resize_encode` for a triple, `needs_resize` for the
same triple reports the cache as valid. -/
lemma Backend.needs_resize_after_encode (b : Backend) (p : Resize)
    (bg : Option Rgb) (area : Rect) :
    (b.resize_encode p bg area).needs_resize p area = none := by
  simp [Backend.needs_resize, Backend.resize_encode]

/-- `needs_resize` reports a valid cache exactly when the cached (area,
policy, fingerprint) triple matches the current one. -/
lemma Backend.needs_resize_eq_none_iff (b : Backend) (p : Resize)
    (area : Rect) :
    b.needs_resize p area = none ↔
      ∃ e, b.cache = some e ∧ e.rect = area ∧ e.policy = p ∧
        e.hash = b.source.hash := by
  cases hc : b.cache with
  | none => simp [Backend.needs_resize, hc]
  | some e =>
      by_cases h : e.rect = area ∧ e.policy = p ∧ e.hash = b.source.hash
      · simp [Backend.needs_resize, hc, h, h.1, h.2.1, h.2.2]
      · simp only [Backend.needs_resize, hc, if_neg h]
        constructor
        · intro habs
          exact absurd habs (by simp)
        · rintro ⟨e2, he2, hr, hp, hh⟩
          exact absurd (h (by cases he2; exact ⟨hr, hp, hh⟩)) not_false

/-- `resize_encode` touches only the cache: the source the state was
created from is kept as is. -/
lemma Backend.resize_encode_source (b : Backend) (p : Resize)
    (bg : Option Rgb) (area : Rect) :
    (b.resize_encode p bg area).source = b.source := rfl

/-- Claim C2: for every stateful backend variant, `needs_resize(policy,
area)` returns a target exactly when the cached payload is stale: it
returns one on the first call after construction (empty cache), returns
nothing exactly when the cached (area, policy, source fingerprint) triple
equals the current one — so any change of area, policy or fingerprint
since the last encode yields a target again — and, immediately after
`resize_encode(policy, _, area)`, `needs_resize(policy, area)` returns
nothing. -/
theorem C2_needs_resize_staleness (s : StatefulBlock) (p : Resize)
    (bg : Option Rgb) (area : Rect) :
    (s.cacheOf = none → s.needs_resize p area = some area) ∧
      (s.resize_encode p bg area).needs_resize p area = none ∧
      (s.needs_resize p area = none ↔
        ∃ e, s.cacheOf = some e ∧ e.rect = area ∧ e.policy = p ∧
          e.hash = s.sourceOf.hash) := by
  cases s with
  | halfblocks b =>
      exact ⟨fun hc => b.needs_resize_of_cache_none p area hc,
        b.needs_resize_after_encode p bg area,
        b.needs_resize_eq_none_iff p area⟩
  | sixel b =>
      exact ⟨fun hc => b.needs_resize_of_cache_none p area hc,
        b.needs_resize_after_encode p bg area,
        b.needs_resize_eq_none_iff p area⟩
  | kitty k =>
      exact ⟨fun hc => k.backend.needs_resize_of_cache_none p area hc,
        k.backend.needs_resize_after_encode p bg area,
        k.backend.needs_resize_eq_none_iff p area⟩
  | iterm2 b =>
      exact ⟨fun hc => b.needs_resize_of_cache_none p area hc,
        b.needs_resize_after_encode p bg area,
        b.needs_resize_eq_none_iff p area⟩

/-- Claim C2 witness: on a fresh halfblocks state `needs_resize` returns
the requested area, and after `resize_encode` for that same (policy, area)
it returns nothing. -/
theorem C2_witness :
    (mkFresh BackendKind.halfblocks 0 (ImageSource.new ⟨2, 2, [5]⟩ (1, 1))).needs_resize
        Resize.fit ⟨0, 0, 2, 2⟩ = some ⟨0, 0, 2, 2⟩ ∧
      ((mkFresh BackendKind.halfblocks 0 (ImageSource.new ⟨2, 2, [5]⟩ (1, 1))).resize_encode
          Resize.fit none ⟨0, 0, 2, 2⟩).needs_resize Resize.fit ⟨0, 0, 2, 2⟩ = none :=
  ⟨(C2_needs_resize_staleness (mkFresh BackendKind.halfblocks 0
      (ImageSource.new ⟨2, 2, [5]⟩ (1, 1))) Resize.fit none ⟨0, 0, 2, 2⟩).1 rfl,
    (C2_needs_resize_staleness (mkFresh BackendKind.halfblocks 0
      (ImageSource.new ⟨2, 2, [5]⟩ (1, 1))) Resize.fit none ⟨0, 0, 2, 2⟩).2.1⟩

/-- Claim C3: for every backend kind, rendering a freshly constructed
stateful Protocol State with no prior `resize_encode` leaves the buffer
exactly as it was (no glyph is written) and cannot fail — `render` is a
total function that never resizes or recomputes, so a caller that skipped
`resize_encode` sees a blank area, never a crash. -/
theorem C3_render_fresh_writes_nothing (k : BackendKind) (id : Nat)
    (src : ImageSource) (area : Rect) (buf : Buffer) :
    (mkFresh k id src).render area buf = buf := by
  cases k <;> rfl

/-- The three-step sequence as the spec words it: ask `needs_resize`;
if it returns a rect, run `resize_encode` at that rect; then always run
`render` on the (possibly updated) state. -/
def needsThenEncodeThenRender (s : StatefulBlock) (resize : Resize)
    (bg : Option Rgb) (area : Rect) (buf : Buffer) : StatefulBlock × Buffer :=
  let s1 := (s.needs_resize resize area).elim s
    (fun rect => s.resize_encode resize bg rect)
  (s1, s1.render area buf)

/-- Claim C4: for every stateful backend, policy, background color, area
and buffer, the convenience method `resize_encode_render` produces exactly
the state and buffer of the three-step sequence `needs_resize` →
conditional `resize_encode` → unconditional `render`. -/
theorem C4_resize_encode_render_is_composition (s : StatefulBlock)
    (resize : Resize) (bg : Option Rgb) (area : Rect) (buf : Buffer) :
    s.resize_encode_render resize bg area buf =
      needsThenEncodeThenRender s resize bg area buf := by
  cases h : s.needs_resize resize area <;>
    simp [StatefulBlock.resize_encode_render, needsThenEncodeThenRender, h]

/-- Claim C10: every operation of the stateful contract preserves the
active backend variant: `resize_encode` maps each variant to the same
variant, and so does the state produced by `resize_encode_render`
(`needs_resize` and `render` do not produce a new state at all in this
model, so they preserve the variant trivially). -/
theorem C10_variant_preserved (s : StatefulBlock) (p : Resize)
    (bg : Option Rgb) (area : Rect) (buf : Buffer) :
    (s.resize_encode p bg area).tag = s.tag ∧
      ((s.resize_encode_render p bg area buf).1).tag = s.tag := by
  refine ⟨by cases s <;> rfl, ?_⟩
  cases h : s.needs_resize p area with
  | none => simp [StatefulBlock.resize_encode_render, h]
  | some rect =>
      simp only [StatefulBlock.resize_encode_render, h]
      cases s <;> rfl

/-- Claim C5: destroying a chunked-transfer (kitty-style) Protocol State
always takes the teardown path that emits exactly one escape command, a
deletion command, and it references the same object id carried by every
command of the state's creation/placement sequence. -/
theorem C5_kitty_destroy_single_delete (k : KittyState) (payload : List Nat)
    (area : Rect) :
    kittyDestroy k = [KittyCmd.delete k.id] ∧
      (kittyDestroy k).length = 1 ∧
      (∀ c ∈ kittyDestroy k, c.objectId = k.id) ∧
      (∀ c ∈ kittyCreateCmds k payload area, c.objectId = k.id) := by
  refine ⟨rfl, rfl, ?_, ?_⟩
  · intro c hc
    simp only [kittyDestroy, List.mem_singleton] at hc
    subst hc
    rfl
  · intro c hc
    simp only [kittyCreateCmds, List.mem_append, List.mem_map,
      List.mem_singleton, List.mem_range] at hc
    rcases hc with ⟨i, _, rfl⟩ | rfl <;> rfl

/-- Claim C5 witness: a kitty state with object id `7`: its placement
command carries id `7`, and its destruction emits exactly the single
deletion command for id `7`. -/
theorem C5_witness :
    (KittyCmd.place 7 2 1).objectId = 7 ∧
      kittyDestroy ⟨7, Backend.fresh (ImageSource.new ⟨1, 1, [0]⟩ (1, 1))⟩ =
        [KittyCmd.delete 7] :=
  ⟨(C5_kitty_destroy_single_delete
        ⟨7, Backend.fresh (ImageSource.new ⟨1, 1, [0]⟩ (1, 1))⟩ [1, 2, 3]
        ⟨0, 0, 2, 1⟩).2.2.2 (KittyCmd.place 7 2 1) (by decide),
    (C5_kitty_destroy_single_delete
        ⟨7, Backend.fresh (ImageSource.new ⟨1, 1, [0]⟩ (1, 1))⟩ [1, 2, 3]
        ⟨0, 0, 2, 1⟩).1⟩

/-- A payload write never lands outside the render area. -/
lemma payloadWriteAt_eq_none_of_not_contains (p : Payload) (area : Rect)
    (pos : Pos) (h : ¬ area.contains pos) :
    payloadWriteAt p area pos = none := by
  rw [payloadWriteAt, if_neg]
  rintro ⟨h1, h2, h3, h4⟩
  refine h ⟨h1, ?_, h3, ?_⟩
  · have := Nat.min_le_left area.width p.rect.width
    omega
  · have := Nat.min_le_left area.height p.rect.height
    omega

/-- A stateful backend's `render` is pointwise the buffer overridden by
its buffer-independent write set. -/
lemma StatefulBlock.render_eq_writes (s : StatefulBlock) (area : Rect)
    (buf : Buffer) (pos : Pos) :
    s.render area buf pos = (s.renderWrites area pos).getD (buf pos) := by
  cases s with
  | halfblocks b =>
      cases hc : b.cache <;>
        simp [StatefulBlock.render, StatefulBlock.renderWrites,
          StatefulBlock.cacheOf, Backend.render, renderPayload, hc]
  | sixel b =>
      cases hc : b.cache <;>
        simp [StatefulBlock.render, StatefulBlock.renderWrites,
          StatefulBlock.cacheOf, Backend.render, renderPayload, hc]
  | kitty k =>
      cases hc : k.backend.cache <;>
        simp [StatefulBlock.render, StatefulBlock.renderWrites,
          StatefulBlock.cacheOf, Backend.render, renderPayload, hc]
  | iterm2 b =>
      cases hc : b.cache <;>
        simp [StatefulBlock.render, StatefulBlock.renderWrites,
          StatefulBlock.cacheOf, Backend.render, renderPayload, hc]

/-- A fixed backend's `render` is pointwise the buffer overridden by its
buffer-independent write set. -/
lemma FixedBlock.render_eq_fixed_writes (f : FixedBlock) (area : Rect)
    (buf : Buffer) (pos : Pos) :
    f.render area buf pos = (f.renderWrites area pos).getD (buf pos) := by
  cases f <;>
    simp [FixedBlock.render, FixedBlock.renderWrites, FixedBlock.payloadOf,
      FixedState.render, renderPayload]

/-- Claim C6: for every backend, fixed or stateful, and every area, buffer
and position, `render` produces at each position either the write-set cell
— a value of `renderWrites`, computed from the backend state and the area
alone, never from the buffer — or the untouched prior buffer cell; and the
write set is empty outside the area rectangle, so every cell outside it is
unchanged by the call. -/
theorem C6_render_stays_inside_area (s : StatefulBlock) (f : FixedBlock)
    (area : Rect) (buf : Buffer) (pos : Pos) :
    (s.render area buf pos = (s.renderWrites area pos).getD (buf pos) ∧
      f.render area buf pos = (f.renderWrites area pos).getD (buf pos)) ∧
      (¬ area.contains pos →
        s.render area buf pos = buf pos ∧ f.render area buf pos = buf pos) := by
  refine ⟨⟨s.render_eq_writes area buf pos, f.render_eq_fixed_writes area buf pos⟩,
    fun hout => ⟨?_, ?_⟩⟩
  · rw [s.render_eq_writes area buf pos]
    cases s with
    | halfblocks b =>
        cases hc : b.cache <;>
          simp [StatefulBlock.renderWrites, StatefulBlock.cacheOf, hc,
            payloadWriteAt_eq_none_of_not_contains _ _ _ hout]
    | sixel b =>
        cases hc : b.cache <;>
          simp [StatefulBlock.renderWrites, StatefulBlock.cacheOf, hc,
            payloadWriteAt_eq_none_of_not_contains _ _ _ hout]
    | kitty k =>
        cases hc : k.backend.cache <;>
          simp [StatefulBlock.renderWrites, StatefulBlock.cacheOf, hc,
            payloadWriteAt_eq_none_of_not_contains _ _ _ hout]
    | iterm2 b =>
        cases hc : b.cache <;>
          simp [StatefulBlock.renderWrites, StatefulBlock.cacheOf, hc,
            payloadWriteAt_eq_none_of_not_contains _ _ _ hout]
  · rw [f.render_eq_fixed_writes area buf pos]
    simp [FixedBlock.renderWrites,
      payloadWriteAt_eq_none_of_not_contains _ _ _ hout]

/-- Claim C6 witness: an encoded sixel state and a fixed halfblocks
backend rendered into a `2×2` area leave the cell at `(5, 5)` — outside
the area — exactly as it was. -/
theorem C6_witness :
    ((mkFresh BackendKind.sixel 0 (ImageSource.new ⟨2, 2, [9]⟩ (1, 1))).resize_encode
        Resize.fit none ⟨0, 0, 2, 2⟩).render ⟨0, 0, 2, 2⟩ (fun _ => blankCell)
        (5, 5) = blankCell ∧
      (FixedBlock.halfblocks ⟨encodePayload (ImageSource.new ⟨2, 2, [9]⟩ (1, 1))
          Resize.fit none ⟨0, 0, 2, 2⟩⟩).render ⟨0, 0, 2, 2⟩
        (fun _ => blankCell) (5, 5) = blankCell := by
  have h := C6_render_stays_inside_area
    ((mkFresh BackendKind.sixel 0 (ImageSource.new ⟨2, 2, [9]⟩ (1, 1))).resize_encode
      Resize.fit none ⟨0, 0, 2, 2⟩)
    (FixedBlock.halfblocks ⟨encodePayload (ImageSource.new ⟨2, 2, [9]⟩ (1, 1))
      Resize.fit none ⟨0, 0, 2, 2⟩⟩)
    ⟨0, 0, 2, 2⟩ (fun _ => blankCell) (5, 5)
  exact h.2 (by decide)

/-- Claim C8: cloning an `ImageSource` and building two independent
stateful backend states from it, then mutating one via `resize_encode`,
leaves the other state's cached payload unchanged (it keeps its fresh
empty cache; in this pure embedding `resize_encode` consumes and returns
only the state it mutates, so no aliasing path to the sibling exists) and
leaves the shared source unchanged: the mutated state still carries the
identical `ImageSource`, bytes included — `resize_encode` writes only its
own cache. -/
theorem C8_clone_and_encode_independent (k1 k2 : BackendKind)
    (id1 id2 : Nat) (img : DynamicImage) (fs : FontSize) (p : Resize)
    (bg : Option Rgb) (area : Rect) :
    ((mkFresh k1 id1 (ImageSource.new img fs)).resize_encode p bg area).sourceOf
        = ImageSource.new img fs ∧
      (mkFresh k2 id2 (ImageSource.new img fs)).cacheOf = none ∧
      ((mkFresh k1 id1 (ImageSource.new img fs)).resize_encode p bg area).sourceOf.image.bytes
        = img.bytes := by
  refine ⟨?_, ?_, ?_⟩
  · cases k1 <;> rfl
  · cases k2 <;> rfl
  · cases k1 <;> rfl

end RatatuiImage
